import Mathlib

/-!
Verification of the Arrayong quote-bot core (src/main.rs) against its
natural-language specification.

The development shallowly embeds the three core components:

* the parser `parse_quotes` (years → months → quote leaves),
* the TTL-gated refresh engine `QuoteCache.get_quotes`,
* the flatten-and-sample selector inside `do_command`.

Machine integers (`usize`, `SystemTime`, `Duration`) are modelled as `Nat`
(millisecond timestamps); fallible paths and Rust panics are modelled with
`Except`; the network fetch (`perform_request`, which covers both the HTTP
round-trip and the `serde_json` deserialisation) is passed in as an oracle
argument of type `Except CacheRetrievalError Json`; the random number
generator is passed in as an index argument.
-/

/-- A `serde_json::Value`. Number payloads are irrelevant to every claim,
so they are modelled as `Int`. Objects are ordered lists of key/value
pairs, mirroring iteration over the deserialised map. -/
inductive Json where
  | null
  | bool (b : Bool)
  | num (n : Int)
  | str (s : String)
  | arr (items : List Json)
  | obj (fields : List (String × Json))

/-- Whether a `Json` value is an object (`Json::Object` in the source). -/
def Json.isObj : Json → Bool
  | Json.obj _ => true
  | _ => false

/-- `struct Quote { year, month, text }` from the source. -/
structure Quote where
  year : String
  month : String
  text : String
deriving DecidableEq

/-- `struct QuoteMonth { quotes: Vec<Quote> }` from the source. -/
structure QuoteMonth where
  quotes : List Quote
deriving DecidableEq

/-- `struct QuoteYear { months: OrderMap<String, QuoteMonth> }` from the
source. The `OrderMap` is modelled as an insertion-ordered association
list. -/
structure QuoteYear where
  months : List (String × QuoteMonth)
deriving DecidableEq

/-- `OrderMap::insert`: if the key is present, the value is replaced in
place (the entry keeps its position); otherwise the pair is appended. -/
def omInsert {V : Type} : List (String × V) → String → V → List (String × V)
  | [], k, v => [(k, v)]
  | (k', v') :: rest, k, v =>
      if k' = k then (k, v) :: rest else (k', v') :: omInsert rest k v

/-- The innermost loop of `parse_quotes`: from a month's JSON array, keep
exactly the `Json::String` elements, in order, as quotes. -/
def parseMonth (yearKey monthKey : String) (quotesVec : List Json) : List Quote :=
  quotesVec.filterMap fun q =>
    match q with
    | Json.str s => some ⟨yearKey, monthKey, s⟩
    | _ => none

/-- The middle loop of `parse_quotes` over one year's `months_map`,
threading the `months` OrderMap and the running `quote_count`.
Note the source adds the FULL array length to `quote_count`
(`quote_count += quotes_vec.len()`) before filtering non-strings. -/
def parseMonths (yearKey : String) :
    List (String × Json) → List (String × QuoteMonth) × Nat →
    List (String × QuoteMonth) × Nat
  | [], acc => acc
  | (monthKey, quotesDto) :: rest, (months, cnt) =>
      match quotesDto with
      | Json.arr quotesVec =>
          parseMonths yearKey rest
            (omInsert months monthKey ⟨parseMonth yearKey monthKey quotesVec⟩,
             cnt + quotesVec.length)
      | _ => parseMonths yearKey rest (months, cnt)

/-- The outer loop of `parse_quotes` over `years_map`, threading the
`years` OrderMap and the running `quote_count`. -/
def parseYears :
    List (String × Json) → List (String × QuoteYear) × Nat →
    List (String × QuoteYear) × Nat
  | [], acc => acc
  | (yearKey, monthsDto) :: rest, (years, cnt) =>
      match monthsDto with
      | Json.obj monthsMap =>
          let inner := parseMonths yearKey monthsMap ([], cnt)
          parseYears rest (omInsert years yearKey ⟨inner.1⟩, inner.2)
      | _ => parseYears rest (years, cnt)

/-- The one failure mode of `parse_quotes`: the source reaches
`panic!("Parsing error!")` exactly when the top-level value is not a JSON
object. The spec names this condition `MalformedDocument`. -/
inductive ParsePanic where
  | malformedDocument
deriving DecidableEq

/-- `fn parse_quotes(years_dto: Json) -> (OrderMap<String, QuoteYear>, usize)`.
The panic on a non-object top level is modelled as `Except.error`. -/
def parse_quotes (yearsDto : Json) :
    Except ParsePanic (List (String × QuoteYear) × Nat) :=
  match yearsDto with
  | Json.obj yearsMap => Except.ok (parseYears yearsMap ([], 0))
  | _ => Except.error ParsePanic.malformedDocument

/-- The number of quote leaves actually stored in a collection: the sum of
quote-list lengths over all months over all years (the spec's `size`
invariant for `QuoteCollection`). -/
def collectionSize (years : List (String × QuoteYear)) : Nat :=
  (years.map fun p => (p.2.months.map fun m => m.2.quotes.length).sum).sum

/-- `struct CacheRetrievalError(String)`: a network (`reqwest`) or JSON
deserialisation (`serde_json`) failure inside `perform_request`. -/
inductive CacheRetrievalError where
  | mk (msg : String)
deriving DecidableEq

/-- `struct CacheError` ("Cache miss!"): returned by `get_quotes` when no
snapshot is present. The spec names this condition `EmptyCache`. -/
inductive CacheError where
  | emptyCache
deriving DecidableEq

/-- `struct QuoteCache`. `SystemTime` is a millisecond timestamp (`Nat`,
with `UNIX_EPOCH = 0`); `Duration` is a millisecond count (`Nat`). -/
structure QuoteCache where
  last_request_time : Nat
  cache : Option (List (String × QuoteYear))
  cache_size : Nat
  request_url : String
  delay : Nat
deriving DecidableEq

/-- The outcome of `self.perform_request(request_url)`: the fetched and
deserialised JSON document, or a transport / deserialisation error. The
environment (network + remote content) is an oracle argument. -/
abbrev FetchOutcome : Type := Except CacheRetrievalError Json

/-- The guard of the refresh branch in `get_quotes`:
`now.duration_since(self.last_request_time)` succeeds (`now` is not
earlier than the last request time) and the elapsed duration is at least
`self.delay`. -/
def shouldRefresh (s : QuoteCache) (now : Nat) : Bool :=
  s.last_request_time ≤ now ∧ s.delay ≤ now - s.last_request_time

/-- The tail of `get_quotes`: `Ok` with the cache contents when present,
else `Err(CacheError)`. -/
def snapshotResult (c : Option (List (String × QuoteYear))) :
    Except CacheError (List (String × QuoteYear)) :=
  match c with
  | some contents => Except.ok contents
  | none => Except.error CacheError.emptyCache

/-- `fn get_quotes(&mut self) -> Result<&OrderMap<String, QuoteYear>, CacheError>`.
Returns the updated state together with the `Result`. A fetched document
whose top level is not an object makes `parse_quotes` panic, which is
modelled as the outer `Except.error`. Per the source, the URL re-parse
(`reqwest::Url::parse(...).expect(...)`) is assumed to succeed: the URL
string is configuration, fixed at construction. -/
def get_quotes (s : QuoteCache) (now : Nat) (fetch : FetchOutcome) :
    Except ParsePanic (QuoteCache × Except CacheError (List (String × QuoteYear))) :=
  let step : Except ParsePanic QuoteCache :=
    if shouldRefresh s now then
      let s2 := { s with last_request_time := now }
      match fetch with
      | Except.ok json =>
          match parse_quotes json with
          | Except.ok (cache, cache_size) =>
              Except.ok { s2 with cache := some cache, cache_size := cache_size }
          | Except.error e => Except.error e
      | Except.error _ => Except.ok s2
    else
      Except.ok s
  match step with
  | Except.ok s' => Except.ok (s', snapshotResult s'.cache)
  | Except.error e => Except.error e

/-- The `QuoteCache` built in `Handler::ready`: epoch-zero last request
time, no snapshot, zero size. -/
def freshQuoteCache (url : String) (delay : Nat) : QuoteCache :=
  { last_request_time := 0
    cache := none
    cache_size := 0
    request_url := url
    delay := delay }

/-- `const MONTHS: [&str; 12]`. -/
def MONTHS : List String :=
  ["January", "February", "March", "April", "May", "June",
   "July", "August", "September", "October", "November", "December"]

/-- The display payload `send_quote` hands to the messaging collaborator:
the quote text, the human month name, and the year label. -/
structure SentMessage where
  text : String
  monthName : String
  year : String
deriving DecidableEq

/-- The panics reachable from `do_command`. -/
inductive DoPanic where
  /-- `panic!("Cache was null at command!")` on a `get_quotes` error. -/
  | cacheNull
  /-- `parse_quotes` panicking inside the refresh. -/
  | parse (e : ParsePanic)
  /-- `quote.unwrap()` on `None` from `choose` (empty flat sequence). -/
  | unwrapNone
  /-- `send_quote`: `quote.month.parse::<usize>().unwrap() - 1` failing to
  parse, underflowing at 0, or indexing `MONTHS` out of bounds. -/
  | sendMonth
deriving DecidableEq

/-- Model of `str::parse::<usize>()` on the string's character list:
succeeds exactly on non-empty all-digit strings. (Rust additionally
accepts a leading `+` and rejects values above `usize::MAX`; neither case
changes the observable behavior of any claim — such month labels panic in
`send_quote` either way or cannot reach it.) -/
def parseUsizeDigits (s : String) : Option Nat :=
  if s.data ≠ [] ∧ s.data.all Char.isDigit then
    some (s.data.foldl (fun acc c => acc * 10 + (c.toNat - ('0').toNat)) 0)
  else none

/-- `fn send_quote(msg, quote)`: panics unless `quote.month` parses as a
number in `1..=12`; otherwise produces the outbound payload. (The actual
Discord send error is merely logged by the source, so a logging-only
failure is not distinguished here.) -/
def send_quote (q : Quote) : Except DoPanic SentMessage :=
  match parseUsizeDigits q.month with
  | some n =>
      if n = 0 then Except.error DoPanic.sendMonth
      else
        match MONTHS.get? (n - 1) with
        | some m => Except.ok ⟨q.text, m, q.year⟩
        | none => Except.error DoPanic.sendMonth
  | none => Except.error DoPanic.sendMonth

/-- The flattening loop of `do_command`: every quote of every month of
every year is pushed into `quotes_flat`, in iteration order. -/
def flatten (years : List (String × QuoteYear)) : List Quote :=
  years.foldl
    (fun acc p => p.2.months.foldl (fun acc2 m => acc2 ++ m.2.quotes) acc)
    []

/-- `rand::Rng::choose(slice)`: `None` on an empty slice, otherwise the
element at an index drawn uniformly from `[0, len)`. The drawn index is
the oracle argument `i`, reduced `mod` the length so the model is total;
the statements about uniformity quantify over `i < len`, where `i % len = i`. -/
def choose {α : Type} (l : List α) (i : Nat) : Option α :=
  if l.length = 0 then none else l.get? (i % l.length)

/-- `fn do_command(cache, msg, args)`: refresh-and-read via `get_quotes`
(panicking when it errors), then either the unimplemented-query no-op
(non-empty `args`) or flatten + uniform choose + `send_quote`. Returns
the updated cache state and the outbound payload, if one was produced. -/
def do_command (s : QuoteCache) (now : Nat) (fetch : FetchOutcome)
    (args : Option String) (rng : Nat) :
    Except DoPanic (QuoteCache × Option SentMessage) :=
  match get_quotes s now fetch with
  | Except.error e => Except.error (DoPanic.parse e)
  | Except.ok (_, Except.error _) => Except.error DoPanic.cacheNull
  | Except.ok (s', Except.ok quotes) =>
      match args with
      | some query =>
          if query.isEmpty then
            match choose (flatten quotes) rng with
            | none => Except.error DoPanic.unwrapNone
            | some q =>
                match send_quote q with
                | Except.ok sent => Except.ok (s', some sent)
                | Except.error e => Except.error e
          else
            Except.ok (s', none)
      | none =>
          match choose (flatten quotes) rng with
          | none => Except.error DoPanic.unwrapNone
          | some q =>
              match send_quote q with
              | Except.ok sent => Except.ok (s', some sent)
              | Except.error e => Except.error e

/-! ## Helper lemmas about `get_quotes` -/

/-- When the TTL guard is false, `get_quotes` takes the non-refresh path. -/
theorem get_quotes_of_not_shouldRefresh (s : QuoteCache) (now : Nat)
    (fetch : FetchOutcome) (h : shouldRefresh s now = false) :
    get_quotes s now fetch = Except.ok (s, snapshotResult s.cache) := by
  simp [get_quotes, h]

/-- When the TTL guard is true and the fetch errors, only the timestamp
advances. -/
theorem get_quotes_of_fetch_error (s : QuoteCache) (now : Nat)
    (e : CacheRetrievalError) (h : shouldRefresh s now = true) :
    get_quotes s now (Except.error e) =
      Except.ok ({ s with last_request_time := now }, snapshotResult s.cache) := by
  simp [get_quotes, h]

/-- When the TTL guard is true and the fetch succeeds with a parseable
document, snapshot and count are replaced together. -/
theorem get_quotes_of_fetch_ok (s : QuoteCache) (now : Nat) (json : Json)
    (c : List (String × QuoteYear)) (n : Nat) (h : shouldRefresh s now = true)
    (hp : parse_quotes json = Except.ok (c, n)) :
    get_quotes s now (Except.ok json) =
      Except.ok ({ s with last_request_time := now, cache := some c, cache_size := n },
        Except.ok c) := by
  simp [get_quotes, h, hp, snapshotResult]

/-! ## Claim theorems: refresh engine -/

/-- C3: `get_quotes` attempts a fetch if and only if the elapsed time
since `last_request_time` is at least the TTL (`delay`), where elapsed
time is the signed difference `now - last_request_time`. When the guard
is false no fetch happens and both the state and the returned snapshot
are unchanged; when it is true the refresh path runs (witnessed here on
the failing-fetch side by the advanced timestamp). -/
theorem getQuotes_ttl_gating (s : QuoteCache) (now : Nat) :
    (shouldRefresh s now = true ↔
      (s.delay : Int) ≤ (now : Int) - (s.last_request_time : Int))
    ∧ (shouldRefresh s now = false →
        ∀ fetch : FetchOutcome,
          get_quotes s now fetch = Except.ok (s, snapshotResult s.cache))
    ∧ (shouldRefresh s now = true →
        ∀ e : CacheRetrievalError,
          get_quotes s now (Except.error e) =
            Except.ok ({ s with last_request_time := now }, snapshotResult s.cache)) := by
  refine ⟨?_, ?_, ?_⟩
  · simp only [shouldRefresh, decide_eq_true_eq]
    omega
  · intro h fetch
    exact get_quotes_of_not_shouldRefresh s now fetch h
  · intro h e
    exact get_quotes_of_fetch_error s now e h

/-- Witness for `getQuotes_ttl_gating`: with `last_request_time = 100`,
`delay = 50` and `now = 120` the guard is false (elapsed 20 < 50) and the
call leaves the state untouched. -/
theorem getQuotes_ttl_gating_witness :
    get_quotes ⟨100, none, 0, "u", 50⟩ 120 (Except.error (CacheRetrievalError.mk "net"))
      = Except.ok (⟨100, none, 0, "u", 50⟩, snapshotResult none) :=
  (getQuotes_ttl_gating ⟨100, none, 0, "u", 50⟩ 120).2.1 (by decide)
    (Except.error (CacheRetrievalError.mk "net"))

/-- C10: when the clock has moved backwards (`now` precedes
`last_request_time`, so `duration_since` fails), `get_quotes` attempts no
fetch whatever the TTL, leaves every field of the state unchanged, and
still returns the current snapshot if present (else `EmptyCache`). -/
theorem getQuotes_clock_backwards (s : QuoteCache) (now : Nat)
    (fetch : FetchOutcome) (h : now < s.last_request_time) :
    get_quotes s now fetch = Except.ok (s, snapshotResult s.cache) := by
  apply get_quotes_of_not_shouldRefresh
  simp only [shouldRefresh, decide_eq_false_iff_not]
  omega

/-- Witness for `getQuotes_clock_backwards`: `now = 10` precedes
`last_request_time = 100`, even though the elapsed TTL (`delay = 0`)
would otherwise force a refresh. -/
theorem getQuotes_clock_backwards_witness :
    get_quotes ⟨100, some [], 7, "u", 0⟩ 10 (Except.ok Json.null)
      = Except.ok (⟨100, some [], 7, "u", 0⟩, snapshotResult (some [])) :=
  getQuotes_clock_backwards ⟨100, some [], 7, "u", 0⟩ 10 (Except.ok Json.null) (by decide)

/-- C2 counterexample: the claim covers every refresh whose fetch or
parse fails, but on a stale state holding a snapshot, a fetched document
whose top level is not an object (here `[]`) makes the parse fail
(`MalformedDocument`) and the call panic: it returns nothing at all, in
particular not the pre-existing snapshot. -/
theorem getQuotes_stale_on_failure_counterexample :
    shouldRefresh ⟨0, some [("2020", ⟨[]⟩)], 7, "u", 50⟩ 60 = true
    ∧ parse_quotes (Json.arr []) = Except.error ParsePanic.malformedDocument
    ∧ get_quotes ⟨0, some [("2020", ⟨[]⟩)], 7, "u", 50⟩ 60 (Except.ok (Json.arr []))
        = Except.error ParsePanic.malformedDocument :=
  ⟨by decide, rfl, rfl⟩

/-- C2 amended: a `get_quotes` call whose TTL guard fires and whose
fetch fails, or whose fetched body fails to deserialise, leaves the
snapshot and cached count exactly as they were, still returns the
pre-existing snapshot (if any), and has nonetheless advanced
`last_request_time` to `now`; a refresh with a successfully fetched,
parseable document instead replaces the snapshot and count together;
but a fetched document whose top level is not an object makes the call
panic (`MalformedDocument`) after advancing the timestamp, returning
nothing — not even the pre-existing snapshot. -/
theorem getQuotes_stale_on_failure (s : QuoteCache) (now : Nat)
    (h : shouldRefresh s now = true) :
    (∀ e : CacheRetrievalError,
        get_quotes s now (Except.error e) =
          Except.ok ({ s with last_request_time := now }, snapshotResult s.cache))
    ∧ (∀ (json : Json) (c : List (String × QuoteYear)) (n : Nat),
        parse_quotes json = Except.ok (c, n) →
          get_quotes s now (Except.ok json) =
            Except.ok ({ s with last_request_time := now, cache := some c, cache_size := n },
              Except.ok c))
    ∧ (∀ json : Json,
        parse_quotes json = Except.error ParsePanic.malformedDocument →
          get_quotes s now (Except.ok json) =
            Except.error ParsePanic.malformedDocument) := by
  refine ⟨fun e => get_quotes_of_fetch_error s now e h,
    fun json c n hp => get_quotes_of_fetch_ok s now json c n h hp,
    fun json hp => ?_⟩
  simp [get_quotes, h, hp]

/-- Witness for `getQuotes_stale_on_failure`: a stale state (last refresh
at 0, TTL 50, now 60) holding a one-year snapshot and count 7; the failed
fetch leaves snapshot and count while advancing the timestamp. -/
theorem getQuotes_stale_on_failure_witness :
    get_quotes ⟨0, some [("2020", ⟨[]⟩)], 7, "u", 50⟩ 60
        (Except.error (CacheRetrievalError.mk "net"))
      = Except.ok (⟨60, some [("2020", ⟨[]⟩)], 7, "u", 50⟩,
          snapshotResult (some [("2020", ⟨[]⟩)])) :=
  (getQuotes_stale_on_failure ⟨0, some [("2020", ⟨[]⟩)], 7, "u", 50⟩ 60 (by decide)).1
    (CacheRetrievalError.mk "net")

/-- C6: whenever `get_quotes` returns (does not panic), its `Result`
component is `Ok` with the current (post-refresh) snapshot when one is
present and `Err(EmptyCache)` otherwise; in particular a freshly
constructed state whose refresh attempt fails yields `EmptyCache`. -/
theorem getQuotes_snapshot_or_empty (s : QuoteCache) (now : Nat)
    (fetch : FetchOutcome) :
    (∀ s' r, get_quotes s now fetch = Except.ok (s', r) → r = snapshotResult s'.cache)
    ∧ (∀ (url : String) (d : Nat) (e : CacheRetrievalError),
        ∃ s' : QuoteCache,
          get_quotes (freshQuoteCache url d) now (Except.error e)
            = Except.ok (s', Except.error CacheError.emptyCache)) := by
  constructor
  · intro s' r hr
    unfold get_quotes at hr
    rcases hfl : shouldRefresh s now with _ | _ <;> simp only [hfl] at hr
    · simp only [Bool.false_eq_true, if_false] at hr
      cases hr
      rfl
    · simp only [if_true] at hr
      match fetch with
      | Except.error e =>
          simp only [] at hr
          cases hr
          rfl
      | Except.ok json =>
          match hpq : parse_quotes json with
          | Except.ok (c, n) =>
              simp only [hpq] at hr
              cases hr
              rfl
          | Except.error e =>
              simp only [hpq] at hr
              cases hr
  · intro url d e
    by_cases hfl : shouldRefresh (freshQuoteCache url d) now = true
    · exact ⟨{ freshQuoteCache url d with last_request_time := now },
        get_quotes_of_fetch_error (freshQuoteCache url d) now e hfl⟩
    · refine ⟨freshQuoteCache url d, ?_⟩
      exact get_quotes_of_not_shouldRefresh (freshQuoteCache url d)
        now (Except.error e) (by simpa using hfl)

/-- Witness for `getQuotes_snapshot_or_empty`: evaluated at a stale state
with a snapshot (first conjunct) and at a fresh state with a failing
fetch (second conjunct). -/
theorem getQuotes_snapshot_or_empty_witness :
    Except.ok (List.nil (α := String × QuoteYear))
      = snapshotResult (some [])
    ∧ ∃ s' : QuoteCache,
        get_quotes (freshQuoteCache "u" 30) 100 (Except.error (CacheRetrievalError.mk "net"))
          = Except.ok (s', Except.error CacheError.emptyCache) := by
  constructor
  · exact (getQuotes_snapshot_or_empty ⟨100, some [], 0, "u", 50⟩ 120
      (Except.ok Json.null)).1 ⟨100, some [], 0, "u", 50⟩ (Except.ok []) rfl
  · exact (getQuotes_snapshot_or_empty (freshQuoteCache "u" 30) 100
      (Except.error (CacheRetrievalError.mk "net"))).2 "u" 30 (CacheRetrievalError.mk "net")

/-! ## Claim theorems: parser top-level shape -/

/-- C7: `parse_quotes` fails with `MalformedDocument` (the source's fatal
panic) exactly on inputs whose top-level value is not a JSON object, and
succeeds on every top-level object. -/
theorem parseQuotes_top_level_shape (j : Json) :
    if j.isObj then (parse_quotes j).isOk = true
    else parse_quotes j = Except.error ParsePanic.malformedDocument := by
  cases j <;> simp [parse_quotes, Json.isObj, Except.isOk, Except.toBool]

/-! ## Helper lemmas about `flatten` -/

/-- Folding append over a list builds the initial segment followed by the
concatenation of the pieces. -/
theorem foldl_append_eq_flatMap {α β : Type} (f : β → List α) :
    ∀ (l : List β) (a : List α),
      l.foldl (fun acc x => acc ++ f x) a = a ++ l.flatMap f
  | [], a => by simp
  | x :: t, a => by
      rw [List.foldl_cons, foldl_append_eq_flatMap f t (a ++ f x),
        List.flatMap_cons, List.append_assoc]

/-- `flatten` is the concatenation of all quote lists of all months of
all years, in iteration order. -/
theorem flatten_eq_flatMap (years : List (String × QuoteYear)) :
    flatten years
      = years.flatMap fun p => p.2.months.flatMap fun m => m.2.quotes := by
  have inner : ∀ (p : String × QuoteYear) (acc : List Quote),
      p.2.months.foldl (fun acc2 m => acc2 ++ m.2.quotes) acc
        = acc ++ p.2.months.flatMap fun m => m.2.quotes := by
    intro p acc
    exact foldl_append_eq_flatMap (fun m => m.2.quotes) p.2.months acc
  have outer : ∀ (l : List (String × QuoteYear)) (a : List Quote),
      l.foldl (fun acc p => p.2.months.foldl (fun acc2 m => acc2 ++ m.2.quotes) acc) a
        = a ++ l.flatMap fun p => p.2.months.flatMap fun m => m.2.quotes := by
    intro l
    induction l with
    | nil => intro a; simp
    | cons p t ih =>
        intro a
        rw [List.foldl_cons, inner p a, ih, List.flatMap_cons, List.append_assoc]
  simpa using outer years []

/-- The flat sequence has exactly one entry per stored quote leaf: its
length is the collection's size. -/
theorem flatten_length (years : List (String × QuoteYear)) :
    (flatten years).length = collectionSize years := by
  rw [flatten_eq_flatMap, collectionSize, List.length_flatMap]
  simp [List.length_flatMap, Function.comp_def]

/-- Occurrences in the flat sequence decompose as the sum of occurrences
over all months over all years. -/
theorem flatten_count (years : List (String × QuoteYear)) (q : Quote) :
    (flatten years).count q
      = (years.map fun p => (p.2.months.map fun m => m.2.quotes.count q).sum).sum := by
  rw [flatten_eq_flatMap, List.count_flatMap]
  simp [List.count_flatMap, Function.comp_def]

/-- Counting which uniformly drawn indices select a given element: over
all indices in `[0, L.length)`, `choose` yields `x` exactly as many times
as `x` occurs in `L`. -/
theorem countP_range_get_eq_count {α : Type} [DecidableEq α] (q : α) :
    ∀ L : List α,
      (List.range L.length).countP (fun i => decide (L.get? i = some q)) = L.count q
  | [] => by simp
  | a :: t => by
      rw [List.length_cons, List.range_succ_eq_map, List.countP_cons, List.countP_map]
      have ht : (List.range t.length).countP
            ((fun i => decide ((a :: t).get? i = some q)) ∘ Nat.succ)
          = (List.range t.length).countP (fun i => decide (t.get? i = some q)) := by
        apply List.countP_congr
        intro i _
        simp [Function.comp_def]
      rw [ht, countP_range_get_eq_count q t, List.count_cons]
      by_cases hq : a = q <;> simp [hq]

/-- Same statement phrased through `choose` (which reduces the drawn
index modulo the length). -/
theorem countP_range_choose_eq_count {α : Type} [DecidableEq α] (L : List α) (q : α) :
    (List.range L.length).countP (fun i => decide (choose L i = some q)) = L.count q := by
  by_cases h : L.length = 0
  · rw [h]
    have : L = [] := List.length_eq_zero.mp h
    simp [this]
  · have hcongr : (List.range L.length).countP (fun i => decide (choose L i = some q))
        = (List.range L.length).countP (fun i => decide (L.get? i = some q)) := by
      apply List.countP_congr
      intro i hi
      have hi' : i < L.length := List.mem_range.mp hi
      simp [choose, h, Nat.mod_eq_of_lt hi']
    rw [hcongr, countP_range_get_eq_count]

/-! ## Claim theorems: selector -/

/-- C4: the flat sequence built by `do_command` has length equal to the
collection's size; over the `size` equally likely index draws, each quote
value is selected exactly as many times as it occurs among the leaves
(`1/size` per leaf — no weighting by year or month); and its leaf
occurrences decompose as the per-month counts summed over all months of
all years, i.e. every stored quote of every year and month is present
exactly once. -/
theorem selectRandom_uniform (c : List (String × QuoteYear)) :
    (flatten c).length = collectionSize c
    ∧ (∀ q : Quote,
        (List.range (collectionSize c)).countP
            (fun i => decide (choose (flatten c) i = some q))
          = (flatten c).count q)
    ∧ (∀ q : Quote,
        (flatten c).count q
          = (c.map fun p => (p.2.months.map fun m => m.2.quotes.count q).sum).sum) := by
  refine ⟨flatten_length c, ?_, fun q => flatten_count c q⟩
  intro q
  rw [← flatten_length c]
  exact countP_range_choose_eq_count (flatten c) q

/-- C5: the selection returns the empty result exactly when the
collection's size is `0` (in particular it returns `none`, and does not
fault, on an empty collection), whatever index the generator drew. -/
theorem selectRandom_none_iff (c : List (String × QuoteYear)) (i : Nat) :
    choose (flatten c) i = none ↔ collectionSize c = 0 := by
  rw [← flatten_length c]
  unfold choose
  by_cases h : (flatten c).length = 0
  · simp [h]
  · have hlt : i % (flatten c).length < (flatten c).length :=
      Nat.mod_lt _ (Nat.pos_of_ne_zero h)
    rw [if_neg h, List.get?_eq_get hlt]
    simp [h]

/-! ## Claim theorems: invocation handler -/

/-- C8 counterexample: at a state with no snapshot (and no refresh due,
so the fetch is not even consulted), `get_quotes` yields the
`EmptyCache` result, and handling the invocation does NOT merely decline:
`do_command` faults (`panic!("Cache was null at command!")`), contradicting
the claim that it produces no fault. -/
theorem doCommand_emptyCache_counterexample :
    get_quotes ⟨5, none, 0, "u", 50⟩ 3 (Except.error (CacheRetrievalError.mk "net"))
      = Except.ok (⟨5, none, 0, "u", 50⟩, Except.error CacheError.emptyCache)
    ∧ do_command ⟨5, none, 0, "u", 50⟩ 3 (Except.error (CacheRetrievalError.mk "net")) none 0
      = Except.error DoPanic.cacheNull := ⟨rfl, rfl⟩

/-- C8 amended: when the handler receives the `EmptyCache` result it
produces no outbound send, but it panics (`Cache was null at command!`)
rather than declining gracefully. -/
theorem doCommand_emptyCache_panics (s : QuoteCache) (now : Nat)
    (fetch : FetchOutcome) (args : Option String) (rng : Nat) (s' : QuoteCache)
    (h : get_quotes s now fetch = Except.ok (s', Except.error CacheError.emptyCache)) :
    do_command s now fetch args rng = Except.error DoPanic.cacheNull := by
  unfold do_command
  rw [h]

/-- Witness for `doCommand_emptyCache_panics` at a concrete empty state. -/
theorem doCommand_emptyCache_panics_witness :
    do_command ⟨5, none, 0, "v", 50⟩ 3 (Except.error (CacheRetrievalError.mk "x")) (some "hi") 2
      = Except.error DoPanic.cacheNull :=
  doCommand_emptyCache_panics ⟨5, none, 0, "v", 50⟩ 3
    (Except.error (CacheRetrievalError.mk "x")) (some "hi") 2 ⟨5, none, 0, "v", 50⟩ rfl

/-- C9 counterexample: an invocation with non-empty `queryText` is NOT a
no-op on the cache state: `get_quotes` runs before the query check, so a
due refresh still happens. Here the fresh state (TTL 0) gets its snapshot
populated and its timestamp advanced even though the query `"q"` is
non-empty and no send occurs. -/
theorem doCommand_query_counterexample :
    do_command (freshQuoteCache "u" 0) 5
        (Except.ok (Json.obj [("2020",
          Json.obj [("3", Json.arr [Json.str "hello", Json.str "world"])])]))
        (some "q") 0
      = Except.ok
          (⟨5, some [("2020", ⟨[("3",
              ⟨[⟨"2020", "3", "hello"⟩, ⟨"2020", "3", "world"⟩]⟩)]⟩)], 2, "u", 0⟩,
           none)
    ∧ (⟨5, some [("2020", ⟨[("3",
          ⟨[⟨"2020", "3", "hello"⟩, ⟨"2020", "3", "world"⟩]⟩)]⟩)], 2, "u", 0⟩ : QuoteCache)
        ≠ freshQuoteCache "u" 0 := by
  refine ⟨rfl, ?_⟩
  intro h
  cases h

/-- C9 amended: a non-empty `queryText` still runs `get_quotes` first
(the cache state may refresh, an empty cache still panics, a parse panic
propagates), then skips selection and produces no outbound send; an
empty or absent `queryText` goes on to `choose` over the flattened
snapshot and then the outbound send. -/
theorem doCommand_query_branch (s : QuoteCache) (now : Nat)
    (fetch : FetchOutcome) (rng : Nat) :
    (∀ q : String, q.isEmpty = false →
      do_command s now fetch (some q) rng
        = match get_quotes s now fetch with
          | Except.ok (s', Except.ok _) => Except.ok (s', none)
          | Except.ok (_, Except.error _) => Except.error DoPanic.cacheNull
          | Except.error e => Except.error (DoPanic.parse e))
    ∧ (∀ (args : Option String) (s' : QuoteCache)
          (quotes : List (String × QuoteYear)) (qu : Quote) (sent : SentMessage),
        (args = none ∨ args = some "") →
        get_quotes s now fetch = Except.ok (s', Except.ok quotes) →
        choose (flatten quotes) rng = some qu →
        send_quote qu = Except.ok sent →
        do_command s now fetch args rng = Except.ok (s', some sent)) := by
  constructor
  · intro q hq
    unfold do_command
    cases hg : get_quotes s now fetch with
    | error e => rfl
    | ok p =>
        obtain ⟨s', r⟩ := p
        cases r with
        | error ce => rfl
        | ok quotes => simp [hq]
  · intro args s' quotes qu sent hargs hg hc hs
    rcases hargs with h | h
    · subst h
      unfold do_command
      rw [hg]
      simp [hc, hs]
    · subst h
      unfold do_command
      rw [hg]
      have he : "".isEmpty = true := rfl
      simp [he, hc, hs]

/-- Witness for `doCommand_query_branch`: both branches evaluated on the
end-to-end example document (TTL 0, fresh state). -/
theorem doCommand_query_branch_witness :
    do_command (freshQuoteCache "u" 0) 5
        (Except.ok (Json.obj [("2020",
          Json.obj [("3", Json.arr [Json.str "hello", Json.str "world"])])]))
        (some "say") 1
      = Except.ok
          (⟨5, some [("2020", ⟨[("3",
              ⟨[⟨"2020", "3", "hello"⟩, ⟨"2020", "3", "world"⟩]⟩)]⟩)], 2, "u", 0⟩,
           none)
    ∧ do_command (freshQuoteCache "u" 0) 5
        (Except.ok (Json.obj [("2020",
          Json.obj [("3", Json.arr [Json.str "hello", Json.str "world"])])]))
        none 1
      = Except.ok
          (⟨5, some [("2020", ⟨[("3",
              ⟨[⟨"2020", "3", "hello"⟩, ⟨"2020", "3", "world"⟩]⟩)]⟩)], 2, "u", 0⟩,
           some ⟨"world", "March", "2020"⟩)
    ∧ do_command (freshQuoteCache "u" 0) 5
        (Except.ok (Json.obj [("2020",
          Json.obj [("3", Json.arr [Json.str "hello", Json.str "world"])])]))
        (some "") 1
      = Except.ok
          (⟨5, some [("2020", ⟨[("3",
              ⟨[⟨"2020", "3", "hello"⟩, ⟨"2020", "3", "world"⟩]⟩)]⟩)], 2, "u", 0⟩,
           some ⟨"world", "March", "2020"⟩) := by
  refine ⟨?_, ?_, ?_⟩
  · rw [(doCommand_query_branch (freshQuoteCache "u" 0) 5
      (Except.ok (Json.obj [("2020",
        Json.obj [("3", Json.arr [Json.str "hello", Json.str "world"])])])) 1).1
      "say" rfl]
    rfl
  · exact (doCommand_query_branch (freshQuoteCache "u" 0) 5
      (Except.ok (Json.obj [("2020",
        Json.obj [("3", Json.arr [Json.str "hello", Json.str "world"])])])) 1).2
      none
      ⟨5, some [("2020", ⟨[("3",
          ⟨[⟨"2020", "3", "hello"⟩, ⟨"2020", "3", "world"⟩]⟩)]⟩)], 2, "u", 0⟩
      [("2020", ⟨[("3", ⟨[⟨"2020", "3", "hello"⟩, ⟨"2020", "3", "world"⟩]⟩)]⟩)]
      ⟨"2020", "3", "world"⟩ ⟨"world", "March", "2020"⟩ (Or.inl rfl) rfl rfl rfl
  · exact (doCommand_query_branch (freshQuoteCache "u" 0) 5
      (Except.ok (Json.obj [("2020",
        Json.obj [("3", Json.arr [Json.str "hello", Json.str "world"])])])) 1).2
      (some "")
      ⟨5, some [("2020", ⟨[("3",
          ⟨[⟨"2020", "3", "hello"⟩, ⟨"2020", "3", "world"⟩]⟩)]⟩)], 2, "u", 0⟩
      [("2020", ⟨[("3", ⟨[⟨"2020", "3", "hello"⟩, ⟨"2020", "3", "world"⟩]⟩)]⟩)]
      ⟨"2020", "3", "world"⟩ ⟨"world", "March", "2020"⟩ (Or.inr rfl) rfl rfl rfl

/-! ## Counting measures for the parser

`parse_quotes` adds `quotes_vec.len()` — the FULL length of each
conforming month array, non-string elements included — to `quote_count`,
while the quotes it stores are only the string elements. The measures
below separate the two. -/

/-- Whether a `Json` value is a string leaf (`Json::String`). -/
def Json.isStr : Json → Bool
  | Json.str _ => true
  | _ => false

/-- What one month value contributes to `quote_count`: the full array
length for a conforming array, nothing otherwise. -/
def monthFullLen : Json → Nat
  | Json.arr v => v.length
  | _ => 0

/-- The number of string elements of a conforming month array: the
quotes actually stored for that month. -/
def monthStrLen : Json → Nat
  | Json.arr v => v.countP Json.isStr
  | _ => 0

/-- The number of non-string elements of a conforming month array: the
leaves skipped by the inner filter yet counted by `quote_count`. -/
def monthSkipLen : Json → Nat
  | Json.arr v => v.countP fun x => ! Json.isStr x
  | _ => 0

/-- Per-year totals of the three measures (conforming years only). -/
def yearFullLen : Json → Nat
  | Json.obj mm => (mm.map fun p => monthFullLen p.2).sum
  | _ => 0

/-- Per-year stored-quote total. -/
def yearStrLen : Json → Nat
  | Json.obj mm => (mm.map fun p => monthStrLen p.2).sum
  | _ => 0

/-- Per-year skipped-element total. -/
def yearSkipLen : Json → Nat
  | Json.obj mm => (mm.map fun p => monthSkipLen p.2).sum
  | _ => 0

/-- What `parse_quotes` returns as the total count of a document: all
elements of all conforming arrays of all conforming years. -/
def docFullCount (ym : List (String × Json)) : Nat :=
  (ym.map fun p => yearFullLen p.2).sum

/-- The number of quote leaves a document actually stores. -/
def docStrCount (ym : List (String × Json)) : Nat :=
  (ym.map fun p => yearStrLen p.2).sum

/-- The number of elements a document's conforming arrays hold that are
skipped (non-strings) yet counted. -/
def docSkipCount (ym : List (String × Json)) : Nat :=
  (ym.map fun p => yearSkipLen p.2).sum

/-- The collection `parse_quotes` builds from one year's months map,
ignoring key replacement (exact under distinct keys): one `QuoteMonth`
per conforming array, in order. -/
def monthsBuild (yk : String) (ms : List (String × Json)) : List (String × QuoteMonth) :=
  ms.filterMap fun p =>
    match p.2 with
    | Json.arr v => some (p.1, ⟨parseMonth yk p.1 v⟩)
    | _ => none

/-- The collection `parse_quotes` builds from a document's years map,
ignoring key replacement (exact under distinct keys): one `QuoteYear`
per conforming object, in order. -/
def yearsBuild (ym : List (String × Json)) : List (String × QuoteYear) :=
  ym.filterMap fun p =>
    match p.2 with
    | Json.obj mm => some (p.1, ⟨monthsBuild p.1 mm⟩)
    | _ => none

/-- A JSON-object document as an actual JSON parser produces it: no
duplicate keys at the top level nor inside any year object. -/
def JsonDocKeysNodup (ym : List (String × Json)) : Prop :=
  (ym.map Prod.fst).Nodup
  ∧ ∀ p ∈ ym, ∀ mm, p.2 = Json.obj mm → (mm.map Prod.fst).Nodup

/-! ## Parser characterisation lemmas -/

/-- Inserting a fresh key appends. -/
theorem omInsert_eq_append {V : Type} (k : String) (v : V) :
    ∀ l : List (String × V), k ∉ l.map Prod.fst → omInsert l k v = l ++ [(k, v)]
  | [], _ => rfl
  | (k', v') :: t, h => by
      have hk : k' ≠ k := by
        intro hkk
        exact h (by simp [hkk])
      have ht : k ∉ t.map Prod.fst := by
        intro hmem
        exact h (by simp [hmem])
      simp [omInsert, hk, omInsert_eq_append k v t ht]

/-- The count component of the month loop: the full lengths of the
conforming arrays, key replacement notwithstanding. -/
theorem parseMonths_snd (yk : String) :
    ∀ (ms : List (String × Json)) (acc : List (String × QuoteMonth) × Nat),
      (parseMonths yk ms acc).2 = acc.2 + (ms.map fun p => monthFullLen p.2).sum
  | [], acc => by simp [parseMonths]
  | (mk, dto) :: rest, (months, cnt) => by
      cases dto <;>
        simp [parseMonths, parseMonths_snd yk rest, monthFullLen] <;> omega

/-- The count component of the year loop: `parse_quotes` totals the full
array lengths over all conforming years, no key hypotheses needed. -/
theorem parseYears_snd :
    ∀ (ym : List (String × Json)) (acc : List (String × QuoteYear) × Nat),
      (parseYears ym acc).2 = acc.2 + docFullCount ym
  | [], acc => by simp [parseYears, docFullCount]
  | (yk, dto) :: rest, (years, cnt) => by
      cases dto <;>
        simp [parseYears, parseYears_snd rest, docFullCount, yearFullLen,
          parseMonths_snd] <;> omega

/-- The collection component of the month loop: under distinct month
keys, each conforming array appends one entry, so the loop appends
`monthsBuild`. -/
theorem parseMonths_fst (yk : String) :
    ∀ (ms : List (String × Json)) (acc : List (String × QuoteMonth) × Nat),
      (ms.map Prod.fst).Nodup →
      (∀ k ∈ ms.map Prod.fst, k ∉ acc.1.map Prod.fst) →
      (parseMonths yk ms acc).1 = acc.1 ++ monthsBuild yk ms
  | [], acc, _, _ => by simp [parseMonths, monthsBuild]
  | (mk, dto) :: rest, (months, cnt), hnd, hdisj => by
      have hmk : mk ∉ months.map Prod.fst := hdisj mk (by simp)
      have hndr : (rest.map Prod.fst).Nodup := by
        simpa using hnd.of_cons
      have hmkrest : mk ∉ rest.map Prod.fst := by
        have := hnd
        simp only [List.map_cons, List.nodup_cons] at this
        exact this.1
      cases dto with
      | arr v =>
          rw [show parseMonths yk ((mk, Json.arr v) :: rest) (months, cnt)
              = parseMonths yk rest
                  (omInsert months mk ⟨parseMonth yk mk v⟩, cnt + v.length) from rfl]
          rw [parseMonths_fst yk rest _ hndr ?_]
          · rw [omInsert_eq_append mk _ months hmk]
            simp [monthsBuild, List.filterMap_cons]
          · intro k hk
            rw [omInsert_eq_append mk _ months hmk]
            simp only [List.map_append, List.map_cons, List.map_nil, List.mem_append,
              List.mem_singleton]
            rintro (hin | heq)
            · exact hdisj k (by simp [hk]) hin
            · exact hmkrest (heq ▸ hk)
      | null =>
          rw [show parseMonths yk ((mk, Json.null) :: rest) (months, cnt)
              = parseMonths yk rest (months, cnt) from rfl]
          rw [parseMonths_fst yk rest _ hndr (fun k hk => hdisj k (by simp [hk]))]
          simp [monthsBuild, List.filterMap_cons]
      | bool b =>
          rw [show parseMonths yk ((mk, Json.bool b) :: rest) (months, cnt)
              = parseMonths yk rest (months, cnt) from rfl]
          rw [parseMonths_fst yk rest _ hndr (fun k hk => hdisj k (by simp [hk]))]
          simp [monthsBuild, List.filterMap_cons]
      | num n =>
          rw [show parseMonths yk ((mk, Json.num n) :: rest) (months, cnt)
              = parseMonths yk rest (months, cnt) from rfl]
          rw [parseMonths_fst yk rest _ hndr (fun k hk => hdisj k (by simp [hk]))]
          simp [monthsBuild, List.filterMap_cons]
      | str s =>
          rw [show parseMonths yk ((mk, Json.str s) :: rest) (months, cnt)
              = parseMonths yk rest (months, cnt) from rfl]
          rw [parseMonths_fst yk rest _ hndr (fun k hk => hdisj k (by simp [hk]))]
          simp [monthsBuild, List.filterMap_cons]
      | obj o =>
          rw [show parseMonths yk ((mk, Json.obj o) :: rest) (months, cnt)
              = parseMonths yk rest (months, cnt) from rfl]
          rw [parseMonths_fst yk rest _ hndr (fun k hk => hdisj k (by simp [hk]))]
          simp [monthsBuild, List.filterMap_cons]

/-- The collection component of the year loop: under distinct keys the
loop appends `yearsBuild`, each conforming year holding exactly its
`monthsBuild`. -/
theorem parseYears_fst :
    ∀ (ym : List (String × Json)) (acc : List (String × QuoteYear) × Nat),
      (ym.map Prod.fst).Nodup →
      (∀ p ∈ ym, ∀ mm, p.2 = Json.obj mm → (mm.map Prod.fst).Nodup) →
      (∀ k ∈ ym.map Prod.fst, k ∉ acc.1.map Prod.fst) →
      (parseYears ym acc).1 = acc.1 ++ yearsBuild ym
  | [], acc, _, _, _ => by simp [parseYears, yearsBuild]
  | (yk, dto) :: rest, (years, cnt), hnd, hin, hdisj => by
      have hyk : yk ∉ years.map Prod.fst := hdisj yk (by simp)
      have hndr : (rest.map Prod.fst).Nodup := by
        simpa using hnd.of_cons
      have hykrest : yk ∉ rest.map Prod.fst := by
        have := hnd
        simp only [List.map_cons, List.nodup_cons] at this
        exact this.1
      have hinr : ∀ p ∈ rest, ∀ mm, p.2 = Json.obj mm → (mm.map Prod.fst).Nodup :=
        fun p hp => hin p (by simp [hp])
      cases dto with
      | obj mm =>
          have hmm : (mm.map Prod.fst).Nodup := hin (yk, Json.obj mm) (by simp) mm rfl
          rw [show parseYears ((yk, Json.obj mm) :: rest) (years, cnt)
              = parseYears rest
                  (omInsert years yk ⟨(parseMonths yk mm ([], cnt)).1⟩,
                   (parseMonths yk mm ([], cnt)).2) from rfl]
          rw [parseYears_fst rest _ hndr hinr ?_]
          · rw [parseMonths_fst yk mm ([], cnt) hmm (by simp)]
            rw [omInsert_eq_append yk _ years hyk]
            simp [yearsBuild, List.filterMap_cons]
          · intro k hk
            rw [omInsert_eq_append yk _ years hyk]
            simp only [List.map_append, List.map_cons, List.map_nil, List.mem_append,
              List.mem_singleton]
            rintro (hin' | heq)
            · exact hdisj k (by simp [hk]) hin'
            · exact hykrest (heq ▸ hk)
      | null =>
          rw [show parseYears ((yk, Json.null) :: rest) (years, cnt)
              = parseYears rest (years, cnt) from rfl]
          rw [parseYears_fst rest _ hndr hinr (fun k hk => hdisj k (by simp [hk]))]
          simp [yearsBuild, List.filterMap_cons]
      | bool b =>
          rw [show parseYears ((yk, Json.bool b) :: rest) (years, cnt)
              = parseYears rest (years, cnt) from rfl]
          rw [parseYears_fst rest _ hndr hinr (fun k hk => hdisj k (by simp [hk]))]
          simp [yearsBuild, List.filterMap_cons]
      | num n =>
          rw [show parseYears ((yk, Json.num n) :: rest) (years, cnt)
              = parseYears rest (years, cnt) from rfl]
          rw [parseYears_fst rest _ hndr hinr (fun k hk => hdisj k (by simp [hk]))]
          simp [yearsBuild, List.filterMap_cons]
      | str s =>
          rw [show parseYears ((yk, Json.str s) :: rest) (years, cnt)
              = parseYears rest (years, cnt) from rfl]
          rw [parseYears_fst rest _ hndr hinr (fun k hk => hdisj k (by simp [hk]))]
          simp [yearsBuild, List.filterMap_cons]
      | arr a =>
          rw [show parseYears ((yk, Json.arr a) :: rest) (years, cnt)
              = parseYears rest (years, cnt) from rfl]
          rw [parseYears_fst rest _ hndr hinr (fun k hk => hdisj k (by simp [hk]))]
          simp [yearsBuild, List.filterMap_cons]

/-- The quotes stored for one month are exactly the string elements. -/
theorem parseMonth_length (yk mk : String) :
    ∀ v : List Json, (parseMonth yk mk v).length = v.countP Json.isStr
  | [] => rfl
  | x :: t => by
      cases x <;>
        simp [parseMonth, List.filterMap_cons, Json.isStr, List.countP_cons] <;>
        simpa [parseMonth] using parseMonth_length yk mk t

/-- One built year stores exactly the string elements of its conforming
arrays. -/
theorem monthsBuild_size (yk : String) :
    ∀ ms : List (String × Json),
      ((monthsBuild yk ms).map fun m => m.2.quotes.length).sum
        = (ms.map fun p => monthStrLen p.2).sum
  | [] => rfl
  | (mk, dto) :: rest => by
      cases dto <;>
        simp [monthsBuild, List.filterMap_cons, monthStrLen, parseMonth_length] <;>
        simpa [monthsBuild] using monthsBuild_size yk rest

/-- The built collection stores exactly the string elements of the
conforming arrays of the conforming years. -/
theorem collectionSize_yearsBuild :
    ∀ ym : List (String × Json), collectionSize (yearsBuild ym) = docStrCount ym
  | [] => rfl
  | (yk, dto) :: rest => by
      cases dto <;>
        simp [yearsBuild, List.filterMap_cons, collectionSize, docStrCount,
          yearStrLen, monthsBuild_size] <;>
        simpa [collectionSize, docStrCount, yearsBuild]
          using collectionSize_yearsBuild rest

/-- Every element of an array is either a kept string or a skipped
non-string. -/
theorem monthFullLen_eq (j : Json) :
    monthFullLen j = monthStrLen j + monthSkipLen j := by
  cases j with
  | arr v =>
      simp only [monthFullLen, monthStrLen, monthSkipLen]
      rw [List.length_eq_countP_add_countP Json.isStr]
      congr 1
      apply List.countP_congr
      intro x _
      cases hx : Json.isStr x <;> simp [hx]
  | null => rfl
  | bool b => rfl
  | num n => rfl
  | str s => rfl
  | obj o => rfl

/-- Per-year decomposition of the counted total. -/
theorem yearFullLen_eq (j : Json) :
    yearFullLen j = yearStrLen j + yearSkipLen j := by
  cases j with
  | obj mm =>
      simp only [yearFullLen, yearStrLen, yearSkipLen]
      induction mm with
      | nil => rfl
      | cons p t ih => simp [monthFullLen_eq]; omega
  | null => rfl
  | bool b => rfl
  | num n => rfl
  | str s => rfl
  | arr a => rfl

/-- Document-level decomposition of the counted total: all counted
elements are either stored quotes or skipped non-strings. -/
theorem docFullCount_eq (ym : List (String × Json)) :
    docFullCount ym = docStrCount ym + docSkipCount ym := by
  simp only [docFullCount, docStrCount, docSkipCount]
  induction ym with
  | nil => rfl
  | cons p t ih => simp [yearFullLen_eq]; omega

/-! ## Claim theorems: parser count -/

/-- C1 counterexample: on the object document
`{"2020": {"3": ["a", 1]}}` the parser stores exactly one quote leaf
(`"a"`; the number `1` is skipped) yet returns total count `2`, because
`quote_count += quotes_vec.len()` runs before the non-string filter. The
count therefore does not equal the number of quote leaves included and
does not reflect only valid entries. -/
theorem parseQuotes_count_counterexample :
    parse_quotes (Json.obj [("2020", Json.obj [("3", Json.arr [Json.str "a", Json.num 1])])])
      = Except.ok ([("2020", ⟨[("3", ⟨[⟨"2020", "3", "a"⟩]⟩)]⟩)], 2)
    ∧ collectionSize [("2020", ⟨[("3", ⟨[⟨"2020", "3", "a"⟩]⟩)]⟩)] = 1
    ∧ (2 : Nat) ≠ 1 :=
  ⟨rfl, rfl, by decide⟩

/-- C1 amended: for every JSON-object document (with the distinct keys a
real JSON parser guarantees), the total count returned by `parse_quotes`
equals the number of quote leaves actually included in the returned
collection PLUS the number of skipped non-string elements of conforming
month arrays; it equals the included-leaf total exactly when no
conforming array holds a non-string element. Non-conforming years and
months contribute nothing to either side. -/
theorem parseQuotes_count_amended (ym : List (String × Json))
    (h : JsonDocKeysNodup ym) :
    ∀ c n, parse_quotes (Json.obj ym) = Except.ok (c, n) →
      n = collectionSize c + docSkipCount ym := by
  intro c n hp
  have hp2 : parseYears ym ([], 0) = (c, n) := by
    simp only [parse_quotes] at hp
    exact Except.ok.inj hp
  have hc : c = yearsBuild ym := by
    have hfst := congrArg Prod.fst hp2
    simp only at hfst
    rw [← hfst, parseYears_fst ym ([], 0) h.1 h.2 (by simp)]
    simp
  have hn : n = docFullCount ym := by
    have hsnd := congrArg Prod.snd hp2
    simp only at hsnd
    rw [← hsnd, parseYears_snd ym ([], 0)]
    simp
  rw [hn, hc, collectionSize_yearsBuild, docFullCount_eq]

/-- Witness for `parseQuotes_count_amended` on the counterexample
document: count 2 = 1 stored leaf + 1 skipped non-string. -/
theorem parseQuotes_count_amended_witness :
    (2 : Nat)
      = collectionSize [("2020", ⟨[("3", ⟨[⟨"2020", "3", "a"⟩]⟩)]⟩)]
        + docSkipCount [("2020", Json.obj [("3", Json.arr [Json.str "a", Json.num 1])])] := by
  refine parseQuotes_count_amended
    [("2020", Json.obj [("3", Json.arr [Json.str "a", Json.num 1])])] ⟨by simp, ?_⟩
    [("2020", ⟨[("3", ⟨[⟨"2020", "3", "a"⟩]⟩)]⟩)] 2 rfl
  intro p hp mm hmm
  simp only [List.mem_singleton] at hp
  rw [hp] at hmm
  simp only at hmm
  cases hmm
  simp
